import Mathlib

/-
Verification of the database/sql core (src/src/pkg/database/sql/sql.go)
against its natural-language specification.

The Go source is shallowly embedded: connections are identified by natural
numbers, driver errors are strings (matching the Go error messages), and the
mutable structures (DB, Tx, Rows, Row) become explicit state passed through
step functions.  Mutex operations and goroutine interleavings are elided: the
claims under verification are all about the sequential state machine that the
mutexes protect.  Ghost fields (closedConns, driverCalls, released, ...)
record externally observable events (driver Close calls, driver invocations)
that the Go code performs but does not store.
-/

namespace SqlDB

/-- Errors are modelled by their Go message strings. -/
abbrev Err := String

/-- driver.ErrBadConn from package database/sql/driver. -/
def errBadConn : Err := "driver: bad connection"

/-- driver.ErrSkip from package database/sql/driver. -/
def errSkip : Err := "driver: skip fast-path; continue as if unimplemented"

/-- Error returned by DB.conn when the handle is closed (sql.go line 320). -/
def errDBClosed : Err := "sql: database is closed"

/-- ErrTxDone (sql.go line 572). -/
def errTxDone : Err := "sql: Transaction has already been committed or rolled back"

/-- ErrNoRows (sql.go line 239). -/
def errNoRows : Err := "sql: no rows in result set"

/-- io.EOF, the end-of-result-set sentinel returned by driver row iterators. -/
def errEOF : Err := "EOF"

/-- Error returned by Rows.Scan on a closed cursor (sql.go line 1127). -/
def errRowsClosed : Err := "sql: Rows closed"

/-- Error returned by Rows.Scan when Next was never called (sql.go line 1133). -/
def errScanWithoutNext : Err := "sql: Scan called without calling Next"

/-- Error returned by Row.Scan for a RawBytes destination (sql.go line 1223). -/
def errRawBytesOnRowScan : Err := "sql: RawBytes isn't allowed on Row.Scan"

/-! ## Connection pool (struct DB, sql.go lines 260-374) -/

/-- Driver connections are identified by numbers; the driver object itself is
opaque to the pool logic. -/
abbrev Conn := Nat

/-- The pool state of a DB handle: the idle list `freeConn` and the `closed`
flag (sql.go lines 260-267).  `closedConns` is a ghost log of the connections
on which the pool called the driver Close method, in order; the Go code drops
these references after calling Close. -/
structure DB where
  freeConn : List Conn := []
  closed : Bool := false
  closedConns : List Conn := []
deriving DecidableEq, Repr

/-- DB.maxIdleConns (sql.go lines 306-311): the constant 2. -/
def DB.maxIdleConns (_db : DB) : Nat := 2

/-- DB.putConn (sql.go lines 356-374).  A bad connection is not reused (the
function returns at once, without closing it); otherwise the connection is
appended to the idle list when the handle is open and the list is below
maxIdleConns, and closed otherwise. -/
def DB.putConn (db : DB) (c : Conn) (err : Option Err) : DB :=
  if err = some errBadConn then
    db
  else if !db.closed && db.freeConn.length < db.maxIdleConns then
    { db with freeConn := db.freeConn ++ [c] }
  else
    { db with closedConns := db.closedConns ++ [c] }

/-- DB.conn (sql.go lines 316-330).  Fails when closed; otherwise pops the
most recently pushed idle connection; otherwise asks the driver to open a new
connection, whose outcome is the parameter `openResult`. -/
def DB.conn (db : DB) (openResult : Except Err Conn) : DB × Except Err Conn :=
  if db.closed then
    (db, .error errDBClosed)
  else
    match db.freeConn.getLast? with
    | some c => ({ db with freeConn := db.freeConn.dropLast }, .ok c)
    | none => (db, openResult)

/-- DB.connIfFree (sql.go lines 332-344).  Removes `wanted` from the idle
list if present, by overwriting its slot with the last element and shrinking
the list by one. -/
def DB.connIfFree (db : DB) (wanted : Conn) : DB × Bool :=
  match db.freeConn.indexOf? wanted with
  | some i =>
      ({ db with
          freeConn := (db.freeConn.set i (db.freeConn.getLastD wanted)).dropLast },
        true)
  | none => (db, false)

/-- DB.Close (sql.go lines 291-304): closes every idle connection, empties
the idle list and sets the closed flag. -/
def DB.Close (db : DB) : DB :=
  { freeConn := [], closed := true, closedConns := db.closedConns ++ db.freeConn }

/-- The pool-touching events that a sequence of Exec/Query/Prepare/Begin
calls on one handle decomposes into: acquiring a connection (DB.conn),
releasing one (DB.putConn), reclaiming a specific one (DB.connIfFree), and
closing the handle (DB.Close). -/
inductive PoolOp
  | acquire (openResult : Except Err Conn)
  | release (c : Conn) (err : Option Err)
  | reclaim (wanted : Conn)
  | closeDB
deriving Repr

/-- State transition of the pool under one event. -/
def DB.step (db : DB) : PoolOp → DB
  | .acquire openResult => (db.conn openResult).1
  | .release c err => db.putConn c err
  | .reclaim wanted => (db.connIfFree wanted).1
  | .closeDB => db.Close

/-- Pool state after a sequence of events. -/
def runPool (db : DB) (ops : List PoolOp) : DB :=
  ops.foldl DB.step db

/-! ## Bounded bad-connection retry (sql.go lines 379-389, 421-431, 499-509) -/

/-- The retry loop shared by DB.Prepare, DB.Exec and DB.Begin:
`for i := 0; i < 10; i++ { r, err = attempt(); if err != ErrBadConn break }`.
`attempt i` is the outcome of the (i+1)-th call of the wrapped single-attempt
function, `fuel` the number of loop iterations left.  When the last permitted
iteration still yields ErrBadConn, that error is returned. -/
def retryBadConn {α : Type} (attempt : Nat → Except Err α) :
    Nat → Nat → Except Err α
  | i, 0 => attempt i
  | i, 1 => attempt i
  | i, Nat.succ fuel =>
      match attempt i with
      | .ok a => .ok a
      | .error e =>
          if e = errBadConn then retryBadConn attempt (i + 1) fuel
          else .error e

/-- DB.Prepare (sql.go lines 379-389): db.prepare wrapped in the 10-attempt
bad-connection retry loop.  `prepare1 i` is the outcome of the (i+1)-th call
of db.prepare. -/
def dbPrepare {α : Type} (prepare1 : Nat → Except Err α) : Except Err α :=
  retryBadConn prepare1 0 10

/-- DB.Exec (sql.go lines 421-431): db.exec wrapped in the same loop. -/
def dbExec {α : Type} (exec1 : Nat → Except Err α) : Except Err α :=
  retryBadConn exec1 0 10

/-- DB.Begin (sql.go lines 499-509): db.begin wrapped in the same loop. -/
def dbBegin {α : Type} (begin1 : Nat → Except Err α) : Except Err α :=
  retryBadConn begin1 0 10

/-! ## Transactions (struct Tx, sql.go lines 547-770) -/

/-- The transaction state: the `done` flag (sql.go line 569).  `driverCalls`
is a ghost counter of the driver invocations made through this transaction;
`connReturned` records that close ran putConn(tx.ci, nil) (sql.go line 579). -/
structure Tx where
  done : Bool := false
  driverCalls : Nat := 0
  connReturned : Bool := false
deriving DecidableEq, Repr

/-- Tx.close (sql.go lines 574-582): sets done and returns the pinned
connection to the pool.  Only reached from Commit and Rollback with
done = false, so the double-close panic branch is not modelled. -/
def Tx.close (tx : Tx) : Tx :=
  { tx with done := true, connReturned := true }

/-- Tx.grabConn (sql.go lines 584-590): fails with ErrTxDone once done. -/
def Tx.grabConn (tx : Tx) : Option Err :=
  if tx.done then some errTxDone else none

/-- Tx.Commit (sql.go lines 599-605).  `derr` is the outcome of the driver
txi.Commit call; the deferred close sets done even when the driver fails. -/
def Tx.Commit (tx : Tx) (derr : Option Err) : Tx × Option Err :=
  if tx.done then (tx, some errTxDone)
  else (Tx.close { tx with driverCalls := tx.driverCalls + 1 }, derr)

/-- Tx.Rollback (sql.go lines 610-616), symmetric to Commit. -/
def Tx.Rollback (tx : Tx) (derr : Option Err) : Tx × Option Err :=
  if tx.done then (tx, some errTxDone)
  else (Tx.close { tx with driverCalls := tx.driverCalls + 1 }, derr)

/-- Tx.Prepare (sql.go lines 630-662): grabConn, then ci.Prepare.  `derr` is
the outcome of the driver calls made on the pinned connection. -/
def Tx.Prepare (tx : Tx) (derr : Option Err) : Tx × Option Err :=
  match tx.grabConn with
  | some e => (tx, some e)
  | none => ({ tx with driverCalls := tx.driverCalls + 1 }, derr)

/-- Tx.Exec (sql.go lines 711-739): grabConn, then Execer or Prepare+Exec on
the pinned connection, abstracted to one driver interaction. -/
def Tx.Exec (tx : Tx) (derr : Option Err) : Tx × Option Err :=
  match tx.grabConn with
  | some e => (tx, some e)
  | none => ({ tx with driverCalls := tx.driverCalls + 1 }, derr)

/-- Tx.Query (sql.go lines 744-759): checks done directly, then goes through
Tx.Prepare and the statement Query on the pinned connection. -/
def Tx.Query (tx : Tx) (derr : Option Err) : Tx × Option Err :=
  if tx.done then (tx, some errTxDone)
  else Tx.Prepare tx derr

/-- Tx.QueryRow (sql.go lines 767-770): Tx.Query with the error deferred
into the returned Row; the Option Err here is that deferred error. -/
def Tx.QueryRow (tx : Tx) (derr : Option Err) : Tx × Option Err :=
  Tx.Query tx derr

/-- The public operations on a transaction, each carrying the outcome the
driver would produce were it reached. -/
inductive TxOp
  | commit (derr : Option Err)
  | rollback (derr : Option Err)
  | prepare (derr : Option Err)
  | exec (derr : Option Err)
  | query (derr : Option Err)
  | queryRow (derr : Option Err)
deriving Repr

/-- Dispatch of one transaction operation. -/
def Tx.step (tx : Tx) : TxOp → Tx × Option Err
  | .commit derr => tx.Commit derr
  | .rollback derr => tx.Rollback derr
  | .prepare derr => tx.Prepare derr
  | .exec derr => tx.Exec derr
  | .query derr => tx.Query derr
  | .queryRow derr => tx.QueryRow derr

/-- Whether an operation is a terminating one (Commit or Rollback). -/
def TxOp.isTerminal : TxOp → Bool
  | .commit _ => true
  | .rollback _ => true
  | _ => false

/-- Transaction state after a sequence of operations. -/
def runTx (tx : Tx) (ops : List TxOp) : Tx :=
  ops.foldl (fun t op => (t.step op).1) tx

/-! ## Driver values and row cursors (struct Rows, sql.go lines 1041-1182) -/

/-- Driver-native values.  The full domain is int64, float64, bool, byte
sequence, text and null; the claims under verification only distinguish
integers, byte sequences and null, so the embedding keeps that subset. -/
inductive DVal
  | int (i : Int)
  | bytes (bs : List Nat)
  | null
deriving DecidableEq, Repr

/-- The row source behind a cursor, as the driver.Rows contract describes it:
a column-name list, the remaining rows, and what Next reports once the rows
are exhausted (`terr = none` stands for io.EOF, `terr = some e` for an
iteration error e). -/
structure DriverRows where
  colNames : List String
  rows : List (List DVal)
  terr : Option Err := none
deriving DecidableEq, Repr

/-- The cursor state (struct Rows, sql.go lines 1041-1051).  `released` and
`stmtClosed` are ghost flags recording that Close ran the releaseConn closure
and closed the originating statement. -/
structure Rows where
  rowsi : DriverRows
  closed : Bool := false
  lastcols : Option (List DVal) := none
  lasterr : Option Err := none
  released : Bool := false
  stmtClosed : Bool := false
deriving DecidableEq, Repr

/-- Rows.Close (sql.go lines 1171-1182): idempotent; closes the driver
iterator, runs the release closure, closes the originating statement.  The
driver Close outcome (passed on to releaseConn and returned) is modelled as
success, which no claim depends on. -/
def Rows.Close (rs : Rows) : Rows × Option Err :=
  if rs.closed then (rs, none)
  else ({ rs with closed := true, released := true, stmtClosed := true }, none)

/-- Rows.Next (sql.go lines 1061-1076).  Returns false on a closed cursor or
a recorded error; allocates the row buffer on first use; delegates to the
driver row fetch; closes the cursor when the driver reports io.EOF. -/
def Rows.Next (rs : Rows) : Rows × Bool :=
  if rs.closed then (rs, false)
  else if rs.lasterr.isSome then (rs, false)
  else
    let buf :=
      match rs.lastcols with
      | none => List.replicate rs.rowsi.colNames.length DVal.null
      | some b => b
    match rs.rowsi.rows with
    | r :: rest =>
        ({ rs with rowsi := { rs.rowsi with rows := rest }, lastcols := some r },
          true)
    | [] =>
        let e :=
          match rs.rowsi.terr with
          | some e => e
          | none => errEOF
        let rs1 := { rs with lastcols := some buf, lasterr := some e }
        if e = errEOF then ((Rows.Close rs1).1, false) else (rs1, false)

/-- Rows.Err (sql.go lines 1081-1086): io.EOF is mapped to no error. -/
def Rows.Err (rs : Rows) : Option Err :=
  if rs.lasterr = some errEOF then none else rs.lasterr

/-- Makes `n` successive Next calls, returning the final state and the list
of the returned booleans in call order. -/
def nextCalls : Rows → Nat → Rows × List Bool
  | rs, 0 => (rs, [])
  | rs, Nat.succ n =>
      let p := rs.Next
      let q := nextCalls p.1 n
      (q.1, p.2 :: q.2)

/-! ## Scan destinations and value conversion -/

/-- What a byte-sequence destination holds after an assignment: an alias of
the driver-owned row buffer at a column index, a caller-owned copy, or the
nil slice. -/
inductive BytesRef
  | aliasCol (i : Nat)
  | owned (bs : List Nat)
  | nilref
deriving DecidableEq, Repr

/-- Scan destinations: a pointer to int64, to a plain byte slice, or to the
borrow-view type RawBytes; each constructor carries the current contents of
the pointed-to variable. -/
inductive Dest
  | dInt (v : Int)
  | dBytes (r : BytesRef)
  | dRaw (r : BytesRef)
deriving DecidableEq, Repr

/-- Whether a destination is the borrow-view type *RawBytes. -/
def Dest.isRawBytes : Dest → Bool
  | .dRaw _ => true
  | _ => false

/-- Dereferences a byte destination against the current driver row buffer
`buf`: an alias reads the buffer, an owned copy is independent of it. -/
def readBytes (buf : List DVal) : BytesRef → Option (List Nat)
  | .aliasCol i =>
      match buf.getD i DVal.null with
      | .bytes bs => some bs
      | _ => none
  | .owned bs => some bs
  | .nilref => none

/-- Modelled from the spec: convertAssign of §4.3 (the file convert.go is not
under src/; only its caller Rows.Scan is).  Null into a byte destination
stores the nil slice, null into an integer destination fails; a byte source
into a RawBytes destination aliases the driver buffer (§4.6 borrow view).
For a byte source into a plain byte destination the parameter `aliased`
selects between aliasing driver memory and copying: the driver contract
quoted in the Row.Scan comment (sql.go lines 1212-1215) permits the driver
buffer to be temporary memory, so the claims about the defensive clone in
Rows.Scan are proved for both behaviours.  `col` is the column index of the
source value. -/
def convertAssign (aliased : Bool) (col : Nat) (dest : Dest) (src : DVal) :
    Except Err Dest :=
  match dest, src with
  | .dInt _, .int v => .ok (.dInt v)
  | .dInt _, .bytes _ => .error "converting driver.Value type []byte to a int64"
  | .dInt _, .null => .error "converting driver.Value type <nil> to a int64"
  | .dBytes _, .bytes bs =>
      .ok (.dBytes (if aliased then .aliasCol col else .owned bs))
  | .dBytes _, .int v => .ok (.dBytes (.owned ((toString v).toList.map Char.toNat)))
  | .dBytes _, .null => .ok (.dBytes .nilref)
  | .dRaw _, .bytes _ => .ok (.dRaw (.aliasCol col))
  | .dRaw _, .int v => .ok (.dRaw (.owned ((toString v).toList.map Char.toNat)))
  | .dRaw _, .null => .ok (.dRaw .nilref)

/-- The per-column assignment loop of Rows.Scan (sql.go lines 1138-1143):
column `k + j` is assigned into destination `j`; the first conversion error
stops the loop, leaving the remaining destinations unwritten. -/
def scanColumns (aliased : Bool) : Nat → List DVal → List Dest →
    List Dest × Option Err
  | _, [], ds => (ds, none)
  | _, _ :: _, [] => ([], none)
  | k, sv :: svs, d :: ds =>
      match convertAssign aliased k d sv with
      | .error e => (d :: ds, some s!"sql: Scan error on column index {k}: {e}")
      | .ok d1 =>
          let p := scanColumns aliased (k + 1) svs ds
          (d1 :: p.1, p.2)

/-- The defensive clone pass of Rows.Scan (sql.go lines 1144-1161): every
destination of exact type *[]byte holding a non-nil slice is replaced by a
fresh copy of the bytes it currently denotes under the row buffer `buf`.
A *RawBytes destination is skipped: the type assertion dp.(*[]byte) at line
1145 already fails for *RawBytes, which makes the inner RawBytes test at
line 1155 unreachable. -/
def cloneBytes (buf : List DVal) : Dest → Dest
  | .dBytes r =>
      match readBytes buf r with
      | none => .dBytes r
      | some bs => .dBytes (.owned bs)
  | d => d

/-- Rows.Scan (sql.go lines 1125-1163).  Returns the new destination
contents and the error; on the early-error paths the destinations are
returned unchanged and the driver is never involved. -/
def Rows.Scan (rs : Rows) (aliased : Bool) (dest : List Dest) :
    List Dest × Option SqlDB.Err :=
  if rs.closed then (dest, some errRowsClosed)
  else if rs.lasterr.isSome then (dest, rs.lasterr)
  else
    match rs.lastcols with
    | none => (dest, some errScanWithoutNext)
    | some cols =>
        if dest.length ≠ cols.length then
          (dest,
            some s!"sql: expected {cols.length} destination arguments in Scan, not {dest.length}")
        else
          match scanColumns aliased 0 cols dest with
          | (ds, some e) => (ds, some e)
          | (ds, none) => (ds.map (cloneBytes cols), none)

/-! ## Single-row results (struct Row, sql.go lines 1187-1237) -/

/-- The Row placeholder returned by QueryRow: a deferred error or a cursor
(sql.go lines 1187-1193; exactly one of the two is set by QueryRow). -/
structure Row where
  err : Option Err := none
  rows : Option Rows := none
deriving DecidableEq, Repr

/-- Row.Scan (sql.go lines 1203-1237).  Returns the final Row state (whose
cursor state shows whether Close ran) together with the destination contents
and the error.  The deferred error is returned first; then RawBytes
destinations are rejected before the deferred Close is installed and before
the cursor advances; then Next, the no-rows check, the row scan, and the
deferred Close.  The case err = none, rows = none cannot be produced by
QueryRow and in Go would dereference nil; it is mapped to a marker error. -/
def Row.Scan (r : Row) (aliased : Bool) (dest : List Dest) :
    Row × (List Dest × Option Err) :=
  match r.err with
  | some e => (r, (dest, some e))
  | none =>
      if dest.any Dest.isRawBytes then
        (r, (dest, some errRawBytesOnRowScan))
      else
        match r.rows with
        | none => (r, (dest, some "sql: Row has neither rows nor error"))
        | some rs =>
            let p := rs.Next
            if p.2 = false then
              ({ r with rows := some (p.1.Close).1 }, (dest, some errNoRows))
            else
              let q := p.1.Scan aliased dest
              ({ r with rows := some (p.1.Close).1 }, q)

/-! ## Statement execution (sql.go lines 814-844 and 921-953) -/

/-- Immutable summary of an executed command (driver.Result). -/
structure DriverResult where
  lastInsertId : Except Err Int
  rowsAffected : Except Err Int

/-- The driver-side prepared statement: the placeholder count NumInput
(-1 when the driver cannot count placeholders) and the driver Exec and
Query behaviours. -/
structure DriverStmt where
  numInput : Int
  exec : List DVal → Except Err DriverResult
  query : List DVal → Except Err DriverRows

/-- Modelled from the spec: driverArgs of §4.3 item 6 (the file convert.go
is not under src/).  Arguments in this embedding are already driver-native
values, for which the normalization is the identity. -/
def driverArgs (args : List DVal) : Except Err (List DVal) :=
  .ok args

/-- resultFromStatement (sql.go lines 824-844).  The second component counts
the driver Exec invocations, to witness that an arity mismatch fails before
the driver is touched. -/
def resultFromStatement (si : DriverStmt) (args : List DVal) :
    Except Err DriverResult × Nat :=
  if si.numInput ≠ -1 ∧ (args.length : Int) ≠ si.numInput then
    (.error s!"sql: expected {si.numInput} arguments, got {args.length}", 0)
  else
    match driverArgs args with
    | .error e => (.error e, 0)
    | .ok dargs =>
        match si.exec dargs with
        | .error e => (.error e, 1)
        | .ok r => (.ok r, 1)

/-- The arity check and driver Query call of Stmt.Query (sql.go lines
926-943), after connStmt has produced the driver statement `si`.  The second
component counts the driver Query invocations. -/
def stmtQuery (si : DriverStmt) (args : List DVal) :
    Except Err DriverRows × Nat :=
  if si.numInput ≠ -1 ∧ (args.length : Int) ≠ si.numInput then
    (.error s!"sql: statement expects {si.numInput} inputs; got {args.length}", 0)
  else
    match driverArgs args with
    | .error e => (.error e, 0)
    | .ok dargs =>
        match si.query dargs with
        | .error e => (.error e, 1)
        | .ok r => (.ok r, 1)

/-! ## Lemmas about the pool -/

lemma putConn_length_le (db : DB) (c : Conn) (err : Option Err)
    (h : db.freeConn.length ≤ 2) :
    (db.putConn c err).freeConn.length ≤ 2 := by
  unfold DB.putConn
  split
  · exact h
  · split
    · next hc =>
        simp only [Bool.and_eq_true, Bool.not_eq_eq_eq_not, Bool.not_true,
          decide_eq_true_eq, DB.maxIdleConns] at hc
        simp only [List.length_append, List.length_cons, List.length_nil]
        omega
    · exact h

lemma conn_length_le (db : DB) (o : Except Err Conn)
    (h : db.freeConn.length ≤ 2) :
    ((db.conn o).1).freeConn.length ≤ 2 := by
  unfold DB.conn
  split
  · exact h
  · split
    · show (db.freeConn.dropLast).length ≤ 2
      rw [List.length_dropLast]
      omega
    · exact h

lemma connIfFree_length_le (db : DB) (wanted : Conn)
    (h : db.freeConn.length ≤ 2) :
    ((db.connIfFree wanted).1).freeConn.length ≤ 2 := by
  unfold DB.connIfFree
  split
  · simp only [List.length_dropLast, List.length_set]
    omega
  · exact h

lemma step_length_le (db : DB) (op : PoolOp)
    (h : db.freeConn.length ≤ 2) :
    (db.step op).freeConn.length ≤ 2 := by
  cases op with
  | acquire o => exact conn_length_le db o h
  | release c err => exact putConn_length_le db c err h
  | reclaim wanted => exact connIfFree_length_le db wanted h
  | closeDB => simp [DB.step, DB.Close]

lemma runPool_length_le (ops : List PoolOp) :
    ∀ db : DB, db.freeConn.length ≤ 2 →
      (runPool db ops).freeConn.length ≤ 2 := by
  induction ops with
  | nil => intro db h; exact h
  | cons op rest ih =>
      intro db h
      exact ih (db.step op) (step_length_le db op h)

/-! ## Lemmas about the retry loop -/

lemma retryBadConn_zero {α : Type} (f : Nat → Except Err α) (i : Nat) :
    retryBadConn f i 0 = f i := rfl

lemma retryBadConn_one {α : Type} (f : Nat → Except Err α) (i : Nat) :
    retryBadConn f i 1 = f i := rfl

lemma retryBadConn_succ {α : Type} (f : Nat → Except Err α) (i n : Nat) :
    retryBadConn f i (n + 2) =
      match f i with
      | .ok a => .ok a
      | .error e =>
          if e = errBadConn then retryBadConn f (i + 1) (n + 1)
          else .error e := rfl

lemma retryBadConn_succ_ok {α : Type} (f : Nat → Except Err α) (i n : Nat)
    (a : α) (hf : f i = .ok a) : retryBadConn f i (n + 2) = .ok a := by
  rw [retryBadConn_succ, hf]

lemma retryBadConn_succ_err {α : Type} (f : Nat → Except Err α) (i n : Nat)
    (e : Err) (hf : f i = .error e) :
    retryBadConn f i (n + 2) =
      if e = errBadConn then retryBadConn f (i + 1) (n + 1)
      else .error e := by
  rw [retryBadConn_succ, hf]

lemma retryBadConn_first {α : Type} (f : Nat → Except Err α) (fuel i : Nat)
    (h : f i ≠ .error errBadConn) : retryBadConn f i fuel = f i := by
  match fuel with
  | 0 => rfl
  | 1 => rfl
  | (n + 2) =>
      rw [retryBadConn_succ]
      match hf : f i with
      | .ok a => rfl
      | .error e =>
          have he : ¬ e = errBadConn := by
            intro he; exact h (by rw [hf, he])
          simp [he]

lemma retryBadConn_allBad {α : Type} (f : Nat → Except Err α) :
    ∀ fuel i, (∀ k, k < fuel + 1 → f (i + k) = .error errBadConn) →
      retryBadConn f i (fuel + 1) = .error errBadConn := by
  intro fuel
  induction fuel with
  | zero =>
      intro i h
      have h0 := h 0 (by omega)
      rw [retryBadConn_one]
      simpa using h0
  | succ n ih =>
      intro i h
      have h0 := h 0 (by omega)
      rw [show n + 1 + 1 = n + 2 from rfl, retryBadConn_succ]
      rw [show i + 0 = i from rfl] at h0
      rw [h0]
      simp only [if_pos rfl]
      exact ih (i + 1) (fun k hk => by
        have := h (k + 1) (by omega)
        simpa [Nat.add_assoc, Nat.add_comm 1 k] using this)

lemma retryBadConn_firstGood {α : Type} (f : Nat → Except Err α) :
    ∀ j fuel i, j < fuel →
      (∀ k, k < j → f (i + k) = .error errBadConn) →
      f (i + j) ≠ .error errBadConn →
      retryBadConn f i fuel = f (i + j) := by
  intro j
  induction j with
  | zero =>
      intro fuel i _ _ hgood
      rw [show i + 0 = i from rfl] at hgood ⊢
      exact retryBadConn_first f fuel i hgood
  | succ m ih =>
      intro fuel i hlt hbad hgood
      obtain ⟨n, rfl⟩ : ∃ n, fuel = n + 2 := ⟨fuel - 2, by omega⟩
      have h0 := hbad 0 (by omega)
      rw [show i + 0 = i from rfl] at h0
      rw [retryBadConn_succ_err f i n errBadConn h0, if_pos rfl]
      have hres := ih (n + 1) (i + 1) (by omega)
        (fun k hk => by
          have := hbad (k + 1) (by omega)
          simpa [Nat.add_assoc, Nat.add_comm 1 k] using this)
        (by
          have harith : i + 1 + m = i + (m + 1) := by omega
          rw [harith]; exact hgood)
      rw [hres]
      congr 1
      omega

lemma retryBadConn_badOnly {α : Type} (f : Nat → Except Err α) :
    ∀ fuel i, retryBadConn f i fuel = .error errBadConn →
      ∀ k, k < fuel → f (i + k) = .error errBadConn := by
  intro fuel
  induction fuel using Nat.strong_induction_on with
  | _ fuel ih =>
      match fuel with
      | 0 => intro i _ k hk; omega
      | 1 =>
          intro i h k hk
          have hk0 : k = 0 := by omega
          rw [hk0, show i + 0 = i from rfl]
          rw [retryBadConn_one] at h
          exact h
      | (n + 2) =>
          intro i h k hk
          match hf : f i with
          | .ok a =>
              rw [retryBadConn_succ_ok f i n a hf] at h
              exact absurd h (by simp)
          | .error e =>
              rw [retryBadConn_succ_err f i n e hf] at h
              by_cases he : e = errBadConn
              · rw [if_pos he] at h
                match k with
                | 0 => rw [show i + 0 = i from rfl, hf, he]
                | (m + 1) =>
                    have := ih (n + 1) (by omega) (i + 1) h m (by omega)
                    simpa [Nat.add_assoc, Nat.add_comm 1 m] using this
              · rw [if_neg he] at h
                exact absurd (by injection h) he

/-! ## Lemmas about transactions -/

lemma tx_step_done (tx : Tx) (op : TxOp) :
    ((tx.step op).1).done = (tx.done || op.isTerminal) := by
  cases op <;>
    cases htx : tx.done <;>
      simp [Tx.step, TxOp.isTerminal, Tx.Commit, Tx.Rollback, Tx.Prepare,
        Tx.Exec, Tx.Query, Tx.QueryRow, Tx.grabConn, Tx.close, htx]

lemma tx_step_frozen (tx : Tx) (op : TxOp) (h : tx.done = true) :
    tx.step op = (tx, some errTxDone) := by
  cases op <;>
    simp [Tx.step, Tx.Commit, Tx.Rollback, Tx.Prepare, Tx.Exec, Tx.Query,
      Tx.QueryRow, Tx.grabConn, h]

lemma runTx_done (ops : List TxOp) :
    ∀ tx : Tx, (runTx tx ops).done = (tx.done || ops.any TxOp.isTerminal) := by
  induction ops with
  | nil => intro tx; simp [runTx]
  | cons op rest ih =>
      intro tx
      show (runTx (tx.step op).1 rest).done = _
      rw [ih, tx_step_done]
      simp [Bool.or_assoc]

/-! ## Claim theorems -/

/-- C1: the done flag of a transaction becomes true exactly when a Commit or
Rollback occurs in the operation sequence, the transition happens at exactly
the terminal operations, and once done every operation (Prepare, Exec, Query,
QueryRow, Commit, Rollback) returns ErrTxDone with the transaction state, in
particular the driver-call counter, unchanged. -/
theorem C1_tx_done_oneshot :
    (∀ ops : List TxOp, (runTx { } ops).done = ops.any TxOp.isTerminal) ∧
    (∀ (tx : Tx) (op : TxOp), tx.done = true →
      tx.step op = (tx, some errTxDone)) ∧
    (∀ (tx : Tx) (op : TxOp), tx.done = false →
      ((tx.step op).1).done = op.isTerminal) := by
  refine ⟨fun ops => ?_, tx_step_frozen, fun tx op h => ?_⟩
  · rw [runTx_done]; rfl
  · rw [tx_step_done, h, Bool.false_or]

/-- C1 witness: after committing, an Exec on the transaction returns
ErrTxDone and leaves the state untouched. -/
theorem C1_tx_done_oneshot_witness :
    (runTx { } [TxOp.commit none]).done = true ∧
    Tx.step (runTx { } [TxOp.commit none]) (TxOp.exec none) =
      (runTx { } [TxOp.commit none], some errTxDone) :=
  ⟨by decide, C1_tx_done_oneshot.2.1 (runTx { } [TxOp.commit none])
    (TxOp.exec none) (by decide)⟩

/-- C2: DB.Prepare, DB.Exec and DB.Begin run their single-attempt version in
a loop of at most 10 attempts; the first attempt whose outcome is not the
bad-connection sentinel ends the loop and is returned, and when all 10
attempts yield the sentinel the loop ends with it. -/
theorem C2_retry_bounded {α : Type} (f : Nat → Except Err α) :
    (∀ j, j < 10 → (∀ k, k < j → f k = .error errBadConn) →
      f j ≠ .error errBadConn →
      dbPrepare f = f j ∧ dbExec f = f j ∧ dbBegin f = f j) ∧
    ((∀ k, k < 10 → f k = .error errBadConn) →
      dbPrepare f = .error errBadConn ∧ dbExec f = .error errBadConn ∧
        dbBegin f = .error errBadConn) := by
  constructor
  · intro j hj hbad hgood
    have h := retryBadConn_firstGood f j 10 0 hj
      (fun k hk => by simpa using hbad k hk) (by simpa using hgood)
    have h0 : f (0 + j) = f j := by rw [Nat.zero_add]
    rw [h0] at h
    exact ⟨h, h, h⟩
  · intro hbad
    have h := retryBadConn_allBad f 9 0
      (fun k hk => by simpa using hbad k (by omega))
    exact ⟨h, h, h⟩

/-- C2 witness: with a driver whose first attempt fails with the
bad-connection sentinel and whose second succeeds, all three loops return
the success of the second attempt. -/
theorem C2_retry_bounded_witness :
    dbPrepare (fun i => if i = 0 then (.error errBadConn : Except Err Nat)
      else .ok 7) = .ok 7 :=
  ((C2_retry_bounded (fun i => if i = 0 then (.error errBadConn : Except Err Nat)
      else .ok 7)).1 1 (by omega)
    (fun k hk => by
      have hk0 : k = 0 := by omega
      simp [hk0])
    (by simp)).1

/-- C3 counterexample: putConn with the bad-connection sentinel returns the
handle state completely unchanged; in particular it does not call Close on
the connection (the ghost log of driver Close calls stays empty), refuting
the part of the claim that says the connection is closed. -/
theorem C3_counterexample :
    DB.putConn { } 7 (some errBadConn) = { } ∧
    7 ∉ (DB.putConn { } 7 (some errBadConn)).closedConns := by
  constructor
  · rfl
  · intro h
    simp [DB.putConn, errBadConn] at h

/-- C3 amended: for every call putConn(c, err) where err is the driver
bad-connection sentinel, the handle state is unchanged: the connection is
not appended to the idle list, and it is also not closed — it is simply
discarded. -/
theorem C3_badconn_discarded (db : DB) (c : Conn) :
    db.putConn c (some errBadConn) = db := by
  simp [DB.putConn]

/-- C4: over every sequence of pool events starting from a fresh handle the
idle list never exceeds maxIdleConns (2); and putConn with a non-bad error
appends the connection exactly when the handle is open and the idle list is
below the bound, and otherwise leaves the idle list unchanged and closes the
connection immediately. -/
theorem C4_idle_bounded :
    (∀ ops : List PoolOp,
      (runPool { } ops).freeConn.length ≤ DB.maxIdleConns (runPool { } ops)) ∧
    (∀ (db : DB) (c : Conn) (err : Option Err), err ≠ some errBadConn →
      ((db.closed = false ∧ db.freeConn.length < db.maxIdleConns) →
        (db.putConn c err).freeConn = db.freeConn ++ [c]) ∧
      (¬ (db.closed = false ∧ db.freeConn.length < db.maxIdleConns) →
        (db.putConn c err).freeConn = db.freeConn ∧
        (db.putConn c err).closedConns = db.closedConns ++ [c])) := by
  constructor
  · intro ops
    exact runPool_length_le ops { } (by simp)
  · intro db c err herr
    constructor
    · intro hcond
      simp [DB.putConn, herr, hcond.1, hcond.2]
    · intro hcond
      have hbool : (!db.closed && decide (db.freeConn.length < db.maxIdleConns)) = false := by
        by_cases hc : db.closed = true
        · simp [hc]
        · have hc2 : db.closed = false := by simpa using hc
          have hlen : ¬ db.freeConn.length < db.maxIdleConns :=
            fun hlt => hcond ⟨hc2, hlt⟩
          simp [hc2, hlen]
      simp [DB.putConn, herr, hbool]

/-- C4 witness: a concrete run (acquire a fresh connection, release three
connections, releasing one of them with a bad-connection error) keeps the
idle list within the bound, and a putConn on a full idle list closes the
connection instead of pooling it. -/
theorem C4_idle_bounded_witness :
    (runPool { } [PoolOp.acquire (.ok 1), PoolOp.release 1 none,
      PoolOp.release 2 (some errBadConn), PoolOp.release 3 none,
      PoolOp.release 4 none]).freeConn.length ≤
        DB.maxIdleConns (runPool { } [PoolOp.acquire (.ok 1),
          PoolOp.release 1 none, PoolOp.release 2 (some errBadConn),
          PoolOp.release 3 none, PoolOp.release 4 none]) ∧
    (DB.putConn { freeConn := [1, 2] } 9 none).freeConn = [1, 2] ∧
    (DB.putConn { freeConn := [1, 2] } 9 none).closedConns = [9] :=
  ⟨C4_idle_bounded.1 [PoolOp.acquire (.ok 1), PoolOp.release 1 none,
      PoolOp.release 2 (some errBadConn), PoolOp.release 3 none,
      PoolOp.release 4 none],
    ((C4_idle_bounded.2 { freeConn := [1, 2] } 9 none (by simp)).2
      (by simp [DB.maxIdleConns])).1,
    by
      have := ((C4_idle_bounded.2 { freeConn := [1, 2] } 9 none (by simp)).2
        (by simp [DB.maxIdleConns])).2
      simpa using this⟩

/-- C8 counterexample: with a driver that yields the bad-connection sentinel
on every attempt, DB.Prepare, DB.Exec and DB.Begin all return that sentinel
to the user, refuting the claim that it never escapes. -/
theorem C8_counterexample :
    dbPrepare (fun _ => (.error errBadConn : Except Err Nat)) =
        .error errBadConn ∧
    dbExec (fun _ => (.error errBadConn : Except Err Nat)) =
        .error errBadConn ∧
    dbBegin (fun _ => (.error errBadConn : Except Err Nat)) =
        .error errBadConn := by
  refine ⟨?_, ?_, ?_⟩ <;> rfl

/-- C8 amended: the bad-connection sentinel escapes DB.Prepare, DB.Exec or
DB.Begin only when every one of the 10 attempts returned it; whenever some
attempt among the first 10 has a different outcome, the sentinel is not the
returned error. -/
theorem C8_badconn_escape {α : Type} (f : Nat → Except Err α) :
    (dbPrepare f = .error errBadConn → ∀ k, k < 10 → f k = .error errBadConn) ∧
    (dbExec f = .error errBadConn → ∀ k, k < 10 → f k = .error errBadConn) ∧
    (dbBegin f = .error errBadConn → ∀ k, k < 10 → f k = .error errBadConn) := by
  refine ⟨fun h k hk => ?_, fun h k hk => ?_, fun h k hk => ?_⟩ <;>
    simpa using retryBadConn_badOnly f 10 0 h k hk

/-- C8 witness: instantiating the escape theorem at the all-bad driver shows
the fourth attempt indeed returned the sentinel. -/
theorem C8_badconn_escape_witness :
    (fun _ => (.error errBadConn : Except Err Nat)) 3 = .error errBadConn :=
  (C8_badconn_escape (fun _ => (.error errBadConn : Except Err Nat))).1
    rfl 3 (by omega)

/-! ## Lemmas about cursor iteration -/

/-- A fresh cursor over a driver row source, as produced by a query. -/
def freshRows (src : DriverRows) : Rows :=
  { rowsi := src }

/-- The cursor state after a successful fetch: the remaining rows shrink to
`rest` and the row buffer holds the fetched row `r`. -/
def advance (rs : Rows) (r : List DVal) (rest : List (List DVal)) : Rows :=
  { rs with rowsi := { rs.rowsi with rows := rest }, lastcols := some r }

lemma nextCalls_zero (rs : Rows) : nextCalls rs 0 = (rs, []) := rfl

lemma nextCalls_succ (rs : Rows) (n : Nat) :
    nextCalls rs (n + 1) =
      ((nextCalls (rs.Next).1 n).1, (rs.Next).2 :: (nextCalls (rs.Next).1 n).2) :=
  rfl

lemma nextCalls_succ_of (rs rs1 : Rows) (b : Bool) (n : Nat)
    (h : rs.Next = (rs1, b)) :
    nextCalls rs (n + 1) = ((nextCalls rs1 n).1, b :: (nextCalls rs1 n).2) := by
  rw [nextCalls_succ, h]

lemma rows_next_cons (rs : Rows) (r : List DVal) (rest : List (List DVal))
    (hc : rs.closed = false) (he : rs.lasterr = none)
    (hr : rs.rowsi.rows = r :: rest) :
    rs.Next = (advance rs r rest, true) := by
  simp [Rows.Next, advance, hc, he, hr]

lemma rows_next_nil_eof (rs : Rows) (hc : rs.closed = false)
    (he : rs.lasterr = none) (hr : rs.rowsi.rows = [])
    (ht : rs.rowsi.terr = none) :
    (rs.Next).2 = false ∧ ((rs.Next).1).closed = true ∧
      ((rs.Next).1).lasterr = some errEOF := by
  simp [Rows.Next, hc, he, hr, ht, Rows.Close]

lemma rows_next_nil_err (rs : Rows) (e : Err) (hc : rs.closed = false)
    (he : rs.lasterr = none) (hr : rs.rowsi.rows = [])
    (ht : rs.rowsi.terr = some e) (hne : e ≠ errEOF) :
    (rs.Next).2 = false ∧ ((rs.Next).1).closed = false ∧
      ((rs.Next).1).lasterr = some e := by
  simp [Rows.Next, hc, he, hr, ht, hne]

lemma nextCalls_eof (l : List (List DVal)) :
    ∀ rs : Rows, rs.closed = false → rs.lasterr = none →
      rs.rowsi.rows = l → rs.rowsi.terr = none →
      (nextCalls rs (l.length + 1)).2 =
          List.replicate l.length true ++ [false] ∧
        ((nextCalls rs (l.length + 1)).1).closed = true ∧
        ((nextCalls rs (l.length + 1)).1).lasterr = some errEOF := by
  induction l with
  | nil =>
      intro rs hc he hr ht
      obtain ⟨h1, h2, h3⟩ := rows_next_nil_eof rs hc he hr ht
      rw [show ([] : List (List DVal)).length + 1 = 1 from rfl,
        nextCalls_succ, nextCalls_zero]
      simp [h1, h2, h3]
  | cons r rest ih =>
      intro rs hc he hr ht
      have hstep := rows_next_cons rs r rest hc he hr
      rw [show (r :: rest).length + 1 = rest.length + 1 + 1 from rfl,
        nextCalls_succ_of rs (advance rs r rest) true (rest.length + 1) hstep]
      obtain ⟨h1, h2, h3⟩ := ih (advance rs r rest) hc he rfl ht
      refine ⟨?_, h2, h3⟩
      show true :: (nextCalls (advance rs r rest) (rest.length + 1)).2 =
        List.replicate (r :: rest).length true ++ [false]
      rw [h1]
      rfl

lemma nextCalls_err (e : Err) (hne : e ≠ errEOF) (l : List (List DVal)) :
    ∀ rs : Rows, rs.closed = false → rs.lasterr = none →
      rs.rowsi.rows = l → rs.rowsi.terr = some e →
      (nextCalls rs (l.length + 1)).2 =
          List.replicate l.length true ++ [false] ∧
        ((nextCalls rs (l.length + 1)).1).closed = false ∧
        ((nextCalls rs (l.length + 1)).1).lasterr = some e := by
  induction l with
  | nil =>
      intro rs hc he hr ht
      obtain ⟨h1, h2, h3⟩ := rows_next_nil_err rs e hc he hr ht hne
      rw [show ([] : List (List DVal)).length + 1 = 1 from rfl,
        nextCalls_succ, nextCalls_zero]
      simp [h1, h2, h3]
  | cons r rest ih =>
      intro rs hc he hr ht
      have hstep := rows_next_cons rs r rest hc he hr
      rw [show (r :: rest).length + 1 = rest.length + 1 + 1 from rfl,
        nextCalls_succ_of rs (advance rs r rest) true (rest.length + 1) hstep]
      obtain ⟨h1, h2, h3⟩ := ih (advance rs r rest) hc he rfl ht
      refine ⟨?_, h2, h3⟩
      show true :: (nextCalls (advance rs r rest) (rest.length + 1)).2 =
        List.replicate (r :: rest).length true ++ [false]
      rw [h1]
      rfl

/-- C5: over a driver yielding the rows of `l` and then EOF, the first
`l.length` calls to Next return true, the following call returns false, the
cursor is closed at that point, and Err is nil; when the driver instead ends
the iteration with a non-EOF error e, the final Next still returns false but
the cursor is not closed and Err returns e. -/
theorem C5_next_iteration (names : List String) (l : List (List DVal)) :
    ((nextCalls (freshRows ⟨names, l, none⟩) (l.length + 1)).2 =
        List.replicate l.length true ++ [false] ∧
      ((nextCalls (freshRows ⟨names, l, none⟩) (l.length + 1)).1).closed =
        true ∧
      Rows.Err (nextCalls (freshRows ⟨names, l, none⟩) (l.length + 1)).1 =
        none) ∧
    (∀ e : Err, e ≠ errEOF →
      (nextCalls (freshRows ⟨names, l, some e⟩) (l.length + 1)).2 =
          List.replicate l.length true ++ [false] ∧
        ((nextCalls (freshRows ⟨names, l, some e⟩) (l.length + 1)).1).closed =
          false ∧
        Rows.Err (nextCalls (freshRows ⟨names, l, some e⟩)
          (l.length + 1)).1 = some e) := by
  constructor
  · obtain ⟨h1, h2, h3⟩ := nextCalls_eof l (freshRows ⟨names, l, none⟩)
      rfl rfl rfl rfl
    exact ⟨h1, h2, by simp [Rows.Err, h3]⟩
  · intro e hne
    obtain ⟨h1, h2, h3⟩ := nextCalls_err e hne l (freshRows ⟨names, l, some e⟩)
      rfl rfl rfl rfl
    exact ⟨h1, h2, by simp [Rows.Err, h3, hne]⟩

/-- C5 witness: a two-row result set yields true, true, false with the
cursor closed and Err nil, and a result set ending in the error boom yields
false with Err boom. -/
theorem C5_next_iteration_witness :
    (nextCalls (freshRows ⟨["c"], [[DVal.int 1], [DVal.int 2]], none⟩) 3).2 =
      [true, true, false] ∧
    Rows.Err (nextCalls (freshRows ⟨["c"], [], some "boom"⟩) 1).1 =
      some "boom" :=
  ⟨(C5_next_iteration ["c"] [[DVal.int 1], [DVal.int 2]]).1.1,
    ((C5_next_iteration ["c"] []).2 "boom" (by decide)).2.2⟩

/-- C10 counterexample: when the very first Next fails with a non-EOF driver
error, no successful Next has occurred and the cursor is not closed, yet
Scan returns the stored iteration error boom rather than the deterministic
message of the claim. -/
theorem C10_counterexample :
    ((freshRows ⟨["c"], [], some "boom"⟩).Next).2 = false ∧
    (((freshRows ⟨["c"], [], some "boom"⟩).Next).1).closed = false ∧
    ((((freshRows ⟨["c"], [], some "boom"⟩).Next).1).Scan false
      [Dest.dInt 0]).2 = some "boom" ∧
    ("boom" : Err) ≠ errScanWithoutNext := by
  refine ⟨rfl, rfl, rfl, by decide⟩

/-- C10 amended: Rows.Scan on a closed cursor returns the Rows-closed error;
when the cursor is open, no iteration error is recorded and Next has never
been called (no row buffer exists), it returns the Scan-without-Next error;
when a failed Next left a stored iteration error, Scan returns that stored
error instead.  In all three cases the destinations are returned unchanged,
and the driver is not involved (Rows.Scan never calls the driver). -/
theorem C10_scan_state_errors (aliased : Bool) (rs : Rows)
    (dest : List Dest) :
    (rs.closed = true → rs.Scan aliased dest = (dest, some errRowsClosed)) ∧
    (rs.closed = false → rs.lasterr = none → rs.lastcols = none →
      rs.Scan aliased dest = (dest, some errScanWithoutNext)) ∧
    (∀ e : Err, rs.closed = false → rs.lasterr = some e →
      rs.Scan aliased dest = (dest, some e)) := by
  refine ⟨fun hc => ?_, fun hc he hl => ?_, fun e hc he => ?_⟩
  · simp [Rows.Scan, hc]
  · simp [Rows.Scan, hc, he, hl]
  · simp [Rows.Scan, hc, he]

/-- C10 amended witness: on a fresh cursor, Scan fails with the
Scan-without-Next error and leaves the destination list unchanged. -/
theorem C10_scan_state_errors_witness :
    (freshRows ⟨["c"], [[DVal.int 5]], none⟩).Scan false [Dest.dInt 0] =
      ([Dest.dInt 0], some errScanWithoutNext) :=
  (C10_scan_state_errors false (freshRows ⟨["c"], [[DVal.int 5]], none⟩)
    [Dest.dInt 0]).2.1 rfl rfl rfl



/-! ## Lemmas about Row.Scan and the clone pass -/

lemma rows_close_closed (rs : Rows) : ((rs.Close).1).closed = true := by
  unfold Rows.Close
  split
  · next h => exact h
  · rfl

lemma rows_next_nil_false (rs : Rows) (hc : rs.closed = false)
    (he : rs.lasterr = none) (hr : rs.rowsi.rows = []) :
    (rs.Next).2 = false := by
  cases ht : rs.rowsi.terr with
  | none => exact (rows_next_nil_eof rs hc he hr ht).1
  | some e =>
      by_cases hne : e = errEOF
      · subst hne
        simp [Rows.Next, hc, he, hr, ht]
      · exact (rows_next_nil_err rs e hc he hr ht hne).1

/-- C6 counterexample: a Row that carries a live cursor, scanned into a
RawBytes destination, returns the RawBytes rejection error while its cursor
is left open (the deferred Close of Row.Scan is installed only after the
RawBytes check), refuting the part of the claim that the cursor is closed
before Scan returns whenever one exists. -/
theorem C6_counterexample :
    (Row.Scan { rows := some (freshRows ⟨["c"], [[DVal.bytes [97]]], none⟩) }
      false [Dest.dRaw BytesRef.nilref]).2.2 = some errRawBytesOnRowScan ∧
    ((Row.Scan { rows := some (freshRows ⟨["c"], [[DVal.bytes [97]]], none⟩) }
      false [Dest.dRaw BytesRef.nilref]).1.rows).map Rows.closed =
        some false := by
  exact ⟨rfl, rfl⟩

/-- C6 amended: Row.Scan returns the deferred construction error if one was
set; otherwise, if any destination is the borrow-view type RawBytes, it
fails before advancing the cursor and — unlike the claim — leaves the cursor
open; otherwise the cursor is advanced once and closed before returning, an
empty result set yields the ErrNoRows sentinel, and a nonempty one is
delegated to the cursor scan of the first row. -/
theorem C6_row_scan (aliased : Bool) (dest : List Dest) :
    (∀ (r : Row) (e : Err), r.err = some e →
      r.Scan aliased dest = (r, (dest, some e))) ∧
    (∀ r : Row, r.err = none → dest.any Dest.isRawBytes = true →
      r.Scan aliased dest = (r, (dest, some errRawBytesOnRowScan))) ∧
    (∀ (r : Row) (rs : Rows), r.err = none →
      dest.any Dest.isRawBytes = false → r.rows = some rs →
      (((r.Scan aliased dest).1).rows = some (((rs.Next).1.Close).1) ∧
        (((r.Scan aliased dest).1).rows).map Rows.closed = some true) ∧
      (rs.closed = false → rs.lasterr = none → rs.rowsi.rows = [] →
        (r.Scan aliased dest).2 = (dest, some errNoRows)) ∧
      (rs.closed = false → rs.lasterr = none → rs.rowsi.rows ≠ [] →
        (r.Scan aliased dest).2 = ((rs.Next).1).Scan aliased dest)) := by
  refine ⟨fun r e herr => ?_, fun r herr hraw => ?_,
    fun r rs herr hraw hrows => ?_⟩
  · simp [Row.Scan, herr]
  · simp [Row.Scan, herr, hraw]
  · have hexp : r.Scan aliased dest =
        (if (rs.Next).2 = false then
          ({ r with rows := some (((rs.Next).1.Close).1) },
            (dest, some errNoRows))
        else
          ({ r with rows := some (((rs.Next).1.Close).1) },
            (rs.Next).1.Scan aliased dest)) := by
      simp [Row.Scan, herr, hraw, hrows]
    refine ⟨⟨?_, ?_⟩, fun hc he hr => ?_, fun hc he hr => ?_⟩
    · rw [hexp]
      split <;> rfl
    · rw [hexp]
      split <;> simp [rows_close_closed]
    · rw [hexp, if_pos (rows_next_nil_false rs hc he hr)]
    · obtain ⟨r0, rest, hr2⟩ := List.exists_cons_of_ne_nil hr
      have hnext := rows_next_cons rs r0 rest hc he hr2
      have htrue : (rs.Next).2 = true := by rw [hnext]
      rw [hexp, if_neg (by simp [htrue])]

/-- C6 amended witness: a Row over an empty result set scanned into an
integer destination yields ErrNoRows with the cursor closed, and the
deferred-error path returns the stored error. -/
theorem C6_row_scan_witness :
    (Row.Scan { rows := some (freshRows ⟨["c"], [], none⟩) } false
        [Dest.dInt 0]).2 = ([Dest.dInt 0], some errNoRows) ∧
    Row.Scan { err := some errTxDone } false [Dest.dInt 0] =
      ({ err := some errTxDone }, ([Dest.dInt 0], some errTxDone)) :=
  ⟨((C6_row_scan false [Dest.dInt 0]).2.2
      { rows := some (freshRows ⟨["c"], [], none⟩) }
      (freshRows ⟨["c"], [], none⟩) rfl rfl rfl).2.1 rfl rfl rfl,
    (C6_row_scan false [Dest.dInt 0]).1 { err := some errTxDone }
      errTxDone rfl⟩

/-- C7: when the driver reports a placeholder count different from -1 and
the supplied argument count differs from it, resultFromStatement (used by
Stmt.Exec) and the Stmt.Query arity check fail with the argument-count
error and zero driver Exec or Query invocations; when the driver reports -1,
or the counts agree, the check passes and the driver is invoked. -/
theorem C7_arity_check (si : DriverStmt) (args : List DVal) :
    ((si.numInput ≠ -1 ∧ (args.length : Int) ≠ si.numInput) →
      resultFromStatement si args =
        (.error s!"sql: expected {si.numInput} arguments, got {args.length}",
          0) ∧
      stmtQuery si args =
        (.error s!"sql: statement expects {si.numInput} inputs; got {args.length}",
          0)) ∧
    (si.numInput = -1 →
      (resultFromStatement si args).2 = 1 ∧ (stmtQuery si args).2 = 1) ∧
    ((args.length : Int) = si.numInput →
      (resultFromStatement si args).2 = 1 ∧ (stmtQuery si args).2 = 1) := by
  refine ⟨fun h => ?_, fun h => ?_, fun h => ?_⟩
  · unfold resultFromStatement stmtQuery
    rw [if_pos h, if_pos h]
    exact ⟨rfl, rfl⟩
  · have hcond : ¬ (si.numInput ≠ -1 ∧ (args.length : Int) ≠ si.numInput) := by
      simp [h]
    unfold resultFromStatement stmtQuery
    rw [if_neg hcond, if_neg hcond]
    constructor
    · cases hx : si.exec args <;> simp [driverArgs, hx]
    · cases hx : si.query args <;> simp [driverArgs, hx]
  · have hcond : ¬ (si.numInput ≠ -1 ∧ (args.length : Int) ≠ si.numInput) := by
      simp [h]
    unfold resultFromStatement stmtQuery
    rw [if_neg hcond, if_neg hcond]
    constructor
    · cases hx : si.exec args <;> simp [driverArgs, hx]
    · cases hx : si.query args <;> simp [driverArgs, hx]

/-- C7 witness: a statement expecting 2 placeholders rejects an empty
argument list before the driver is invoked, and a statement reporting -1
invokes the driver without an arity check. -/
theorem C7_arity_check_witness :
    resultFromStatement
        ⟨2, fun _ => .ok ⟨.ok 1, .ok 1⟩, fun _ => .ok ⟨["c"], [], none⟩⟩ [] =
      (.error "sql: expected 2 arguments, got 0", 0) ∧
    (resultFromStatement
        ⟨-1, fun _ => .ok ⟨.ok 1, .ok 1⟩, fun _ => .ok ⟨["c"], [], none⟩⟩
        [DVal.int 5]).2 = 1 :=
  ⟨((C7_arity_check
        ⟨2, fun _ => .ok ⟨.ok 1, .ok 1⟩, fun _ => .ok ⟨["c"], [], none⟩⟩
        []).1 ⟨by decide, by decide⟩).1,
    ((C7_arity_check
        ⟨-1, fun _ => .ok ⟨.ok 1, .ok 1⟩, fun _ => .ok ⟨["c"], [], none⟩⟩
        [DVal.int 5]).2.1 rfl).1⟩

/-! ## Lemmas about the defensive clone in Rows.Scan -/

lemma scanColumns_nil (aliased : Bool) (k : Nat) (ds : List Dest) :
    scanColumns aliased k [] ds = (ds, none) := rfl

lemma scanColumns_cons (aliased : Bool) (k : Nat) (sv : DVal)
    (svs : List DVal) (d : Dest) (ds0 : List Dest) :
    scanColumns aliased k (sv :: svs) (d :: ds0) =
      match convertAssign aliased k d sv with
      | .error e =>
          (d :: ds0, some s!"sql: Scan error on column index {k}: {e}")
      | .ok d1 =>
          (d1 :: (scanColumns aliased (k + 1) svs ds0).1,
            (scanColumns aliased (k + 1) svs ds0).2) := rfl

lemma scanColumns_ok_get (aliased : Bool) :
    ∀ (cols : List DVal) (dest ds : List Dest) (k : Nat),
      scanColumns aliased k cols dest = (ds, none) →
      ∀ (i : Nat) (r0 : BytesRef) (bs : List Nat),
        dest[i]? = some (.dBytes r0) →
        cols[i]? = some (.bytes bs) →
        ds[i]? = some (.dBytes (if aliased then .aliasCol (k + i)
          else .owned bs)) := by
  intro cols
  induction cols with
  | nil =>
      intro dest ds k h i r0 bs hd hcol
      simp at hcol
  | cons sv svs ih =>
      intro dest ds k h i r0 bs hd hcol
      match dest with
      | [] => simp at hd
      | d :: ds0 =>
          rw [scanColumns_cons] at h
          cases hca : convertAssign aliased k d sv with
          | error e =>
              rw [hca] at h
              simp at h
          | ok d1 =>
              rw [hca] at h
              have hds : ds = d1 :: (scanColumns aliased (k + 1) svs ds0).1 :=
                (congrArg Prod.fst h).symm
              have hrest : (scanColumns aliased (k + 1) svs ds0).2 = none :=
                congrArg Prod.snd h
              subst hds
              match i with
              | 0 =>
                  have hd0 : d = .dBytes r0 := by simpa using hd
                  have hcol0 : sv = .bytes bs := by simpa using hcol
                  rw [hd0, hcol0] at hca
                  have hd1 : d1 = .dBytes (if aliased then .aliasCol k
                      else .owned bs) := by
                    cases aliased <;> simpa [convertAssign] using hca.symm
                  simp [hd1]
              | (j + 1) =>
                  have hrec := ih ds0
                    (scanColumns aliased (k + 1) svs ds0).1 (k + 1)
                    (Prod.ext rfl hrest) j r0 bs (by simpa using hd)
                    (by simpa using hcol)
                  have harith : k + 1 + j = k + (j + 1) := by omega
                  rw [harith] at hrec
                  simpa using hrec

/-- C9: whenever Rows.Scan succeeds, every destination of the plain byte
type (not the borrow-view RawBytes type) whose column held a non-null byte
value ends up holding an owned copy of those bytes, and dereferencing that
copy is independent of the driver row buffer — so later Next or Close calls,
which only mutate the buffer, cannot affect it.  This holds whether the
underlying convert-assign aliases driver memory or copies. -/
theorem C9_scan_owned_copy (aliased : Bool) (rs : Rows) (cols : List DVal)
    (dest out : List Dest) (hl : rs.lastcols = some cols)
    (hscan : rs.Scan aliased dest = (out, none)) :
    ∀ (i : Nat) (r0 : BytesRef) (bs : List Nat),
      dest[i]? = some (.dBytes r0) →
      cols[i]? = some (.bytes bs) →
      out[i]? = some (.dBytes (.owned bs)) ∧
        (∀ buf : List DVal, readBytes buf (.owned bs) = some bs) := by
  by_cases hc : rs.closed = true
  · exfalso
    rw [Rows.Scan] at hscan
    rw [if_pos hc] at hscan
    simpa using congrArg Prod.snd hscan
  have hc2 : rs.closed = false := by simpa using hc
  cases he : rs.lasterr with
  | some e =>
      exfalso
      rw [Rows.Scan] at hscan
      simp only [hc2, Bool.false_eq_true, if_false, he, Option.isSome_some,
        if_true] at hscan
      simpa using congrArg Prod.snd hscan
  | none =>
      rw [Rows.Scan] at hscan
      simp only [hc2, Bool.false_eq_true, if_false, he, Option.isSome_none,
        hl] at hscan
      by_cases hlen : dest.length = cols.length
      · rw [if_neg (by simp [hlen])] at hscan
        rcases hsc : scanColumns aliased 0 cols dest with ⟨ds, oe⟩
        rw [hsc] at hscan
        cases oe with
        | some e => simp at hscan
        | none =>
            have hout : out = ds.map (cloneBytes cols) := by
              simpa using (congrArg Prod.fst hscan).symm
            intro i r0 bs hd hcol
            have hds := scanColumns_ok_get aliased cols dest ds 0 hsc
              i r0 bs hd hcol
            refine ⟨?_, fun buf => rfl⟩
            rw [hout, List.getElem?_map, hds]
            cases aliased with
            | false => simp [cloneBytes, readBytes]
            | true =>
                simp [cloneBytes, readBytes, List.getD_eq_getElem?_getD, hcol]
      · exfalso
        rw [if_pos (by simpa using hlen)] at hscan
        simpa using congrArg Prod.snd hscan

/-- C9 witness: scanning a byte column into a plain byte destination under
the aliasing convert-assign behaviour still yields an owned copy of the
bytes, whose dereference ignores any later row buffer. -/
theorem C9_scan_owned_copy_witness :
    ([Dest.dBytes (BytesRef.owned [97])])[0]? =
        some (Dest.dBytes (BytesRef.owned [97])) ∧
      (∀ buf : List DVal, readBytes buf (BytesRef.owned [97]) = some [97]) :=
  C9_scan_owned_copy true
    { rowsi := ⟨["c"], [], none⟩, lastcols := some [DVal.bytes [97]] }
    [DVal.bytes [97]] [Dest.dBytes (BytesRef.owned [])]
    [Dest.dBytes (BytesRef.owned [97])] rfl rfl 0 (BytesRef.owned [])
    [97] rfl rfl

end SqlDB
